import Mathlib

/-!
Shallow embedding of `src/dab/netbios.py` (class `NetBIOS`), a minimal
NetBIOS Name Service client. Byte strings and Python text strings are both
modelled as `List Nat` (byte values, resp. Unicode code points). Fallible
Python code is modelled with `Except PyError`; the possible runtime errors
of the translated fragment are enumerated in `PyError`. The host language
is Python 3 (the file uses `bytes(s, 'ascii')`, `str(b, 'ascii')` and
integer indexing of `bytes`), so Python-3 semantics are embedded.
-/

/-- Runtime errors the translated Python code can raise. -/
inductive PyError where
  | exception : PyError
  | indexError : PyError
  | unicodeDecodeError : PyError
  | unicodeEncodeError : PyError
  | valueError : PyError
  | structError : PyError
  | attributeError : PyError
  | nameError : PyError
  | selectError : Nat → PyError
  deriving DecidableEq, Repr

/-- `HEADER_STRUCT_SIZE = struct.calcsize('>HHHHHH') = 12` (line 40). -/
def HEADER_STRUCT_SIZE : Nat := 12

/-- `TYPE_SERVER = 0x20` (line 38). -/
def TYPE_SERVER : Nat := 0x20

/-- Big-endian encoding of one 16-bit word, as produced by `struct.pack('>H', v)`
for `v < 2^16`. -/
def u16be (v : Nat) : List Nat := [v / 256, v % 256]

/-- Big-endian 16-bit read at byte offset `i` (out-of-range bytes default to 0;
callers establish the range). -/
def u16at (d : List Nat) (i : Nat) : Nat := 256 * d.getD i 0 + d.getD (i + 1) 0

/-- `struct.pack('>HHHHHH', a, b, c, dd, e, f)`: raises `struct.error` when a
field does not fit in an unsigned 16-bit word. -/
def struct_pack_header (a b c dd e f : Nat) : Except PyError (List Nat) :=
  if a < 65536 ∧ b < 65536 ∧ c < 65536 ∧ dd < 65536 ∧ e < 65536 ∧ f < 65536 then
    .ok (u16be a ++ u16be b ++ u16be c ++ u16be dd ++ u16be e ++ u16be f)
  else .error .structError

/-- `struct.unpack('>HHHHHH', d)` (line 166): requires exactly 12 bytes and
yields the six big-endian 16-bit words. -/
def struct_unpack_header (d : List Nat) :
    Except PyError (Nat × Nat × Nat × Nat × Nat × Nat) :=
  if d.length = 12 then
    .ok (u16at d 0, u16at d 2, u16at d 4, u16at d 6, u16at d 8, u16at d 10)
  else .error .structError

/-- Python `data[i]` on a `bytes` object: the byte at `i`, `IndexError` when
out of range. -/
def py_index (l : List Nat) (i : Nat) : Except PyError Nat :=
  if i < l.length then .ok (l.getD i 0) else .error .indexError

/-- The ASCII whitespace set stripped by `bytes.strip()` with no argument:
space, tab, LF, VT, FF, CR. NUL (0) is NOT in this set. -/
def py_isspace (b : Nat) : Bool :=
  b = 32 || b = 9 || b = 10 || b = 11 || b = 12 || b = 13

/-- Python `bytes.strip()` (line 180): removes ASCII whitespace from BOTH ends
of the byte string (it does not remove NUL bytes). -/
def bytes_strip (l : List Nat) : List Nat :=
  ((l.dropWhile py_isspace).reverse.dropWhile py_isspace).reverse

/-- `str(b, 'ascii')` (line 181): decodes, raising `UnicodeDecodeError` when a
byte is not 7-bit ASCII. -/
def str_from_ascii (l : List Nat) : Except PyError (List Nat) :=
  if l.all (fun b => b < 128) then .ok l else .error .unicodeDecodeError

/-- `bytes(s, 'ascii')` (lines 95, 97): encodes, raising `UnicodeEncodeError`
when a code point is not 7-bit ASCII. -/
def bytes_ascii (l : List Nat) : Except PyError (List Nat) :=
  if l.all (fun b => b < 128) then .ok l else .error .unicodeEncodeError

/-- `string.ascii_uppercase[i]` (line 88): the letter `'A' + i`, `IndexError`
when `i ≥ 26`. -/
def ascii_uppercase_nth (i : Nat) : Except PyError Nat :=
  if i < 26 then .ok (65 + i) else .error .indexError

/-- `_do_first_level_encoding` (lines 86-88): a code point `c` becomes the two
letters `ascii_uppercase[c >> 4]` and `ascii_uppercase[c & 0x0f]`. -/
def do_first_level_encoding (c : Nat) : Except PyError (List Nat) :=
  match ascii_uppercase_nth (c / 16) with
  | .error e => .error e
  | .ok hi =>
    match ascii_uppercase_nth (c % 16) with
    | .error e => .error e
    | .ok lo => .ok [hi, lo]

/-- `re.sub('.', _do_first_level_encoding, name)` (line 90): every character is
replaced by its nibble-pair, except that `'.'` does not match a newline
(code point 10), which therefore passes through unchanged. -/
def re_sub_dot_encode : List Nat → Except PyError (List Nat)
  | [] => .ok []
  | c :: rest =>
    match (if c = 10 then .ok [c] else do_first_level_encoding c) with
    | .error e => .error e
    | .ok enc =>
      match re_sub_dot_encode rest with
      | .error e => .error e
      | .ok r => .ok (enc ++ r)

/-- Python `chr(c)`: `ValueError` when `c` is not a valid code point. -/
def py_chr (c : Nat) : Except PyError Nat :=
  if c < 1114112 then .ok c else .error .valueError

/-- Lines 79-84: build the 16-byte name field. `'*'` is padded with 15 NULs;
a long name is truncated to 15 characters plus `chr(type)`; otherwise the
name is space-padded (`ljust(15)`) plus `chr(type)`. -/
def name_field (name : List Nat) (ty : Nat) : Except PyError (List Nat) :=
  if name = [42] then .ok (name ++ List.replicate 15 0)
  else if name.length > 15 then
    match py_chr ty with
    | .error e => .error e
    | .ok t => .ok (name.take 15 ++ [t])
  else
    match py_chr ty with
    | .error e => .error e
    | .ok t => .ok (name ++ List.replicate (15 - name.length) 32 ++ [t])

/-- `_encode_name` (lines 72-97). The scope branch calls
`string.split(scope, '.')`; in Python 3 the `string` module has no `split`
function, so a truthy (non-empty) scope raises `AttributeError` before any
scope bytes are produced. An empty or absent scope takes the else branch. -/
def _encode_name (name : List Nat) (ty : Nat) (scope : Option (List Nat)) :
    Except PyError (List Nat) :=
  match name_field name ty with
  | .error e => .error e
  | .ok field =>
    match re_sub_dot_encode field with
    | .error e => .error e
    | .ok enc =>
      let encoded_name := field.length * 2 :: enc
      match scope with
      | some s =>
        if s.isEmpty then bytes_ascii (encoded_name ++ [0])
        else .error .attributeError
      | none => bytes_ascii (encoded_name ++ [0])

/-- `_prepare_net_name_query` (lines 99-107): pack the header
`(trn_id, (is_broadcast and 0x0010) or 0x0000, 1, 0, 0, 0)` big-endian, then
append the encoded wildcard name and `b'\x00\x21\x00\x01'`. -/
def _prepare_net_name_query (trn_id : Nat) (is_broadcast : Bool) :
    Except PyError (List Nat) :=
  match struct_pack_header trn_id (if is_broadcast then 0x0010 else 0x0000) 1 0 0 0 with
  | .error e => .error e
  | .ok header =>
    match _encode_name [42] 0 none with
    | .error e => .error e
    | .ok encoded => .ok (header ++ encoded ++ [0x00, 0x21, 0x00, 0x01])

/-- Lines 178-182, one loop iteration: slice 15 name bytes at `offset`
(Python slicing clamps, it never raises), strip them, decode as ASCII, and
read the type byte at `offset + 15` (plain indexing, which can raise
`IndexError`). The 2 flag bytes of the 18-byte entry are never read. -/
def decode_entry (data : List Nat) (offset : Nat) :
    Except PyError (List Nat × Nat) :=
  match str_from_ascii (bytes_strip ((data.drop offset).take 15)) with
  | .error e => .error e
  | .ok name =>
    match py_index data (offset + 15) with
    | .error e => .error e
    | .ok ty => .ok (name, ty)

/-- The `for i in range(0, numnames)` loop of lines 178-182, advancing the
offset by 18 per entry. -/
def decode_entries (data : List Nat) : Nat → Nat → Except PyError (List (List Nat × Nat))
  | 0, _ => .ok []
  | n + 1, offset =>
    match decode_entry data offset with
    | .error e => .error e
    | .ok entry =>
      match decode_entries data n (offset + 18) with
      | .error e => .error e
      | .ok rest => .ok (entry :: rest)

/-- `_decode_ip_query_packet` (lines 162-186): bare `Exception` when the data
is shorter than the 12-byte header; unpack the header (the informational
response-bit/opcode/flags/rcode decomposition of lines 168-171 is computed and
discarded); read `numnames` at offset `HEADER_STRUCT_SIZE + 44 = 56`; then
either decode `numnames` entries from offset 57 or return `(trn_id, none)`. -/
def _decode_ip_query_packet (data : List Nat) :
    Except PyError (Nat × Option (List (List Nat × Nat))) :=
  if data.length < HEADER_STRUCT_SIZE then .error .exception
  else
    match struct_unpack_header (data.take HEADER_STRUCT_SIZE) with
    | .error e => .error e
    | .ok (trn_id, _code, _qd, _an, _ns, _ar) =>
      match py_index data (HEADER_STRUCT_SIZE + 44) with
      | .error e => .error e
      | .ok numnames =>
        if numnames > 0 then
          match decode_entries data numnames (HEADER_STRUCT_SIZE + 45) with
          | .error e => .error e
          | .ok ret => .ok (trn_id, some ret)
        else .ok (trn_id, none)

/-- One iteration's observable input to the poll loop of lines 137-154:
either the deadline was reached (`time.time() >= end_time`, or `select`
returned with nothing ready), or `select` raised a `select.error` carrying
the given errno, or a datagram with the given payload was received. -/
inductive PollEvent where
  | deadline : PollEvent
  | selErr : Nat → PollEvent
  | datagram : List Nat → PollEvent
  deriving DecidableEq, Repr

/-- Python-3 semantics of `type(ex) is tuple` (line 156): `select.error` is
`OSError`, and an exception instance is never a `tuple`, so the test is
`False` for every caught exception. -/
def ex_type_is_tuple (errnoVal : Nat) : Bool :=
  let _ := errnoVal
  false

/-- The `except select.error as ex` handler of lines 155-160: when
`type(ex) is tuple` the errno is compared against `EINTR` (4) and `EAGAIN`
(11) and benign errors are swallowed, otherwise the exception is re-raised.
Since `ex_type_is_tuple` is always false in Python 3, every caught error is
re-raised. (Were the tuple branch ever taken, it would itself raise
`NameError`: the module never imports `errno`.) -/
def poll_handle_select_error (errnoVal : Nat) : Except PyError Unit :=
  if ex_type_is_tuple errnoVal then
    if errnoVal ≠ 4 ∧ errnoVal ≠ 11 then .error (.selectError errnoVal)
    else .ok ()
  else .error (.selectError errnoVal)

/-- `_poll_for_query_packet` (lines 132-160) as a function of the sequence of
observable events of its iterations. A `deadline` event returns `None`; an
exhausted event list is the deadline case as well. A zero-length datagram
executes `raise NotConnectedError`, which in this module raises `NameError`
(the name `NotConnectedError` is never defined or imported). A decoded
datagram whose transaction ID matches returns the decoded body; any other
decoded datagram is discarded and polling continues. Decode errors propagate
(the `except` clause only catches `select.error`). -/
def _poll_for_query_packet (wait_trn_id : Nat) :
    List PollEvent → Except PyError (Option (List (List Nat × Nat)))
  | [] => .ok none
  | PollEvent.deadline :: _ => .ok none
  | PollEvent.selErr errnoVal :: rest =>
    match poll_handle_select_error errnoVal with
    | .error e => .error e
    | .ok _ => _poll_for_query_packet wait_trn_id rest
  | PollEvent.datagram d :: rest =>
    if d.length = 0 then .error .nameError
    else
      match _decode_ip_query_packet d with
      | .error e => .error e
      | .ok (trn_id, ret) =>
        if trn_id = wait_trn_id then .ok ret
        else _poll_for_query_packet wait_trn_id rest

/-- Lines 127-130: the result post-processing of `query_ip_for_name`.
`if ret:` is Python truthiness, so both `None` and an empty list map to
`None`; otherwise the entries whose type equals `TYPE_SERVER` are kept, in
order, and their names returned. -/
def query_process_ret (ret : Option (List (List Nat × Nat))) :
    Option (List (List Nat)) :=
  match ret with
  | some l =>
    if l.isEmpty then none
    else some ((l.filter fun s => s.2 == TYPE_SERVER).map fun s => s.1)
  | none => none

/-- `query_ip_for_name` (lines 109-130), parameterized by the instance's
`broadcast` attribute (which the method never consults), the random
transaction id drawn at line 123, and the poll-loop event sequence. Line 124
always passes `is_broadcast = False` to `_prepare_net_name_query`. -/
def query_ip_for_name (broadcast : Bool) (trn_id : Nat)
    (events : List PollEvent) : Except PyError (Option (List (List Nat))) :=
  let _ := broadcast
  match _prepare_net_name_query trn_id false with
  | .error e => .error e
  | .ok _data =>
    match _poll_for_query_packet trn_id events with
    | .error e => .error e
    | .ok ret => .ok (query_process_ret ret)

/-- The datagram `query_ip_for_name` hands to `self._write` at line 125:
built at line 124 with `is_broadcast = False`, whatever the instance's
`broadcast` attribute is. -/
def query_sent_datagram (broadcast : Bool) (trn_id : Nat) :
    Except PyError (List Nat) :=
  let _ := broadcast
  _prepare_net_name_query trn_id false

/-! Helper lemmas shared by the claim theorems. -/

/-- Wildcard name encoding evaluates to the 33-byte field
`0x20, 'C', 'K', 'A' × 30, 0x00`. -/
theorem encode_wildcard : _encode_name [42] 0 none =
    .ok (32 :: (67 :: 75 :: List.replicate 30 65) ++ [0]) := by rfl

/-- Packing succeeds on in-range fields and concatenates their big-endian
encodings. -/
theorem struct_pack_header_eq (a b2 c d2 e f : Nat)
    (h : a < 65536 ∧ b2 < 65536 ∧ c < 65536 ∧ d2 < 65536 ∧ e < 65536 ∧ f < 65536) :
    struct_pack_header a b2 c d2 e f =
      .ok (u16be a ++ u16be b2 ++ u16be c ++ u16be d2 ++ u16be e ++ u16be f) := by
  unfold struct_pack_header
  rw [if_pos h]

/-- The exact bytes produced by `_prepare_net_name_query` for any 16-bit
transaction id. -/
theorem prepare_eq (t : Nat) (b : Bool) (ht : t < 65536) :
    _prepare_net_name_query t b = .ok
      ([t / 256, t % 256, 0, if b then 16 else 0, 0, 1, 0, 0, 0, 0, 0, 0]
        ++ (32 :: (67 :: 75 :: List.replicate 30 65) ++ [0])
        ++ [0x00, 0x21, 0x00, 0x01]) := by
  have hb : (if b then (0x0010 : Nat) else 0x0000) < 65536 := by
    cases b <;> decide
  unfold _prepare_net_name_query
  rw [struct_pack_header_eq t (if b then 0x0010 else 0x0000) 1 0 0 0
        ⟨ht, hb, by decide, by decide, by decide, by decide⟩, encode_wildcard]
  cases b <;> rfl

/-- A 16-bit read commutes with truncation to the header. -/
theorem u16at_take (data : List Nat) (i : Nat) (h : i + 1 < 12) :
    u16at (data.take 12) i = u16at data i := by
  show 256 * ((data.take 12).get? i).getD 0 + ((data.take 12).get? (i + 1)).getD 0
      = 256 * (data.get? i).getD 0 + (data.get? (i + 1)).getD 0
  rw [List.get?_eq_getElem?, List.get?_eq_getElem?, List.get?_eq_getElem?,
      List.get?_eq_getElem?, List.getElem?_take_of_lt (by omega),
      List.getElem?_take_of_lt (by omega)]

/-- Unpacking the first 12 bytes of a long-enough buffer yields its six
big-endian words. -/
theorem unpack_take (data : List Nat) (h : 12 ≤ data.length) :
    struct_unpack_header (data.take 12) =
      .ok (u16at data 0, u16at data 2, u16at data 4, u16at data 6,
           u16at data 8, u16at data 10) := by
  unfold struct_unpack_header
  rw [if_pos (by rw [List.length_take]; omega)]
  rw [u16at_take data 0 (by omega), u16at_take data 2 (by omega),
      u16at_take data 4 (by omega), u16at_take data 6 (by omega),
      u16at_take data 8 (by omega), u16at_take data 10 (by omega)]

theorem py_index_lt (l : List Nat) (i : Nat) (h : i < l.length) :
    py_index l i = .ok (l.getD i 0) := by
  unfold py_index
  rw [if_pos h]

theorem py_index_ge (l : List Nat) (i : Nat) (h : l.length ≤ i) :
    py_index l i = .error .indexError := by
  unfold py_index
  rw [if_neg (by omega)]

/-- Big-endian pack/unpack round-trip on one word. -/
theorem u16at_pair (t : Nat) (rest : List Nat) :
    u16at (t / 256 :: t % 256 :: rest) 0 = 256 * (t / 256) + t % 256 := rfl

/-- Spec-side description of the entry the decoder reads at index `i`:
15 name bytes at offset `57 + 18 i` passed through `bytes.strip()`, and the
type byte at offset `57 + 18 i + 15`. -/
def entry_spec (data : List Nat) (i : Nat) : List Nat × Nat :=
  (bytes_strip ((data.drop (57 + 18 * i)).take 15), data.getD (57 + 18 * i + 15) 0)

/-- The entry loop succeeds and reads consecutive 18-byte entries whenever
every entry's type byte is in range and every stripped name is ASCII. -/
theorem decode_entries_eq (data : List Nat) (n : Nat) :
    ∀ (offset : Nat),
      (∀ i, i < n → offset + 18 * i + 15 < data.length ∧
        ((bytes_strip ((data.drop (offset + 18 * i)).take 15)).all
          (fun b => b < 128)) = true) →
      decode_entries data n offset =
        .ok ((List.range n).map fun i =>
          (bytes_strip ((data.drop (offset + 18 * i)).take 15),
           data.getD (offset + 18 * i + 15) 0)) := by
  induction n with
  | zero => intro offset _; rfl
  | succ n ih =>
    intro offset h
    have h0 := h 0 (Nat.succ_pos n)
    rw [show offset + 18 * 0 = offset from by ring] at h0
    unfold decode_entries decode_entry
    unfold str_from_ascii
    rw [if_pos h0.2, py_index_lt data (offset + 15) h0.1]
    rw [ih (offset + 18) (fun i hi => by
      have hh := h (i + 1) (by omega)
      rw [show offset + 18 * (i + 1) = offset + 18 + 18 * i from by ring] at hh
      exact hh)]
    rw [List.range_succ_eq_map, List.map_cons, List.map_map]
    show Except.ok _ = Except.ok _
    rw [show offset + 18 * 0 = offset from by ring]
    congr 1
    · congr 1
      apply List.map_congr_left
      intro i _
      show _ = (bytes_strip ((data.drop (offset + 18 * (i + 1))).take 15),
                data.getD (offset + 18 * (i + 1) + 15) 0)
      rw [show offset + 18 * (i + 1) = offset + 18 + 18 * i from by ring]

/-- Full decoder success: for a buffer long enough for its declared
`numnames` whose stripped names are ASCII, `_decode_ip_query_packet`
returns the header's first word as transaction id together with `none`
(`numnames = 0`) or the `numnames` entries read from offset 57. -/
theorem decode_ok_eq (data : List Nat)
    (hlen : 57 + 18 * data.getD 56 0 ≤ data.length)
    (hascii : ∀ i, i < data.getD 56 0 →
      (((entry_spec data i).1).all (fun b => b < 128)) = true) :
    _decode_ip_query_packet data =
      .ok (u16at data 0,
        if data.getD 56 0 = 0 then none
        else some ((List.range (data.getD 56 0)).map (entry_spec data))) := by
  unfold _decode_ip_query_packet
  simp only [HEADER_STRUCT_SIZE]
  rw [if_neg (by omega)]
  rw [unpack_take data (by omega)]
  rw [show (12 : Nat) + 44 = 56 from rfl, py_index_lt data 56 (by omega)]
  simp only []
  rcases Nat.eq_zero_or_pos (data.getD 56 0) with hz | hp
  · rw [hz]
    simp
  · rw [show (12 : Nat) + 45 = 57 from rfl]
    rw [decode_entries_eq data (data.getD 56 0) 57 (fun i hi => by
      constructor
      · omega
      · have := hascii i hi
        unfold entry_spec at this
        exact this)]
    rw [if_pos hp, if_neg (by omega)]
    rfl

/-- The entry loop returns exactly as many entries as requested. -/
theorem decode_entries_length (data : List Nat) (n : Nat) :
    ∀ (offset : Nat) (l : List (List Nat × Nat)),
      decode_entries data n offset = .ok l → l.length = n := by
  induction n with
  | zero =>
    intro offset l h
    unfold decode_entries at h
    cases h
    rfl
  | succ n ih =>
    intro offset l h
    unfold decode_entries at h
    cases he : decode_entry data offset with
    | error e => rw [he] at h; cases h
    | ok entry =>
      rw [he] at h
      cases hr : decode_entries data n (offset + 18) with
      | error e => rw [hr] at h; cases h
      | ok rest =>
        rw [hr] at h
        cases h
        simp [ih (offset + 18) rest hr]

/-- A decoded `some` body is never the empty list: the entry loop runs
`numnames > 0` times and returns one pair per iteration. -/
theorem decode_ok_some_nonempty (d : List Nat) (t : Nat)
    (l : List (List Nat × Nat))
    (h : _decode_ip_query_packet d = .ok (t, some l)) : l ≠ [] := by
  unfold _decode_ip_query_packet at h
  split at h
  · cases h
  · cases hu : struct_unpack_header (d.take HEADER_STRUCT_SIZE) with
    | error e => rw [hu] at h; cases h
    | ok tup =>
      obtain ⟨a1, a2, a3, a4, a5, a6⟩ := tup
      rw [hu] at h
      simp only [] at h
      cases hi : py_index d (HEADER_STRUCT_SIZE + 44) with
      | error e => rw [hi] at h; cases h
      | ok numnames =>
        rw [hi] at h
        simp only [] at h
        split at h
        · cases he : decode_entries d numnames (HEADER_STRUCT_SIZE + 45) with
          | error e => rw [he] at h; cases h
          | ok ret =>
            rw [he] at h
            cases h
            have hlen := decode_entries_length d numnames _ _ he
            intro hnil
            rw [hnil] at hlen
            simp at hlen
            omega
        · cases h

/-- If the buffer ends at or before the last entry's type byte, the entry
loop raises. -/
theorem decode_entry_short (data : List Nat) (offset : Nat)
    (h : data.length ≤ offset + 15) :
    ∃ e, decode_entry data offset = .error e := by
  unfold decode_entry
  cases hs : str_from_ascii (bytes_strip ((data.drop offset).take 15)) with
  | error e => exact ⟨e, rfl⟩
  | ok nm => exact ⟨.indexError, by rw [py_index_ge data (offset + 15) h]⟩

/-- If the buffer is too short for the type byte of one of `n + 1` entries,
the entry loop fails with some error. -/
theorem decode_entries_short (data : List Nat) (n : Nat) :
    ∀ (offset : Nat), data.length < offset + 18 * n + 16 →
      ∃ e, decode_entries data (n + 1) offset = .error e := by
  induction n with
  | zero =>
    intro offset h
    obtain ⟨e, he⟩ := decode_entry_short data offset (by omega)
    exact ⟨e, by unfold decode_entries; rw [he]⟩
  | succ n ih =>
    intro offset h
    cases he : decode_entry data offset with
    | error e => exact ⟨e, by unfold decode_entries; rw [he]⟩
    | ok entry =>
      obtain ⟨e, hrec⟩ := ih (offset + 18) (by omega)
      exact ⟨e, by unfold decode_entries; rw [he, hrec]⟩

/-- A buffer holding the 12-byte header but not reaching the `numnames` byte
at offset 56 makes the decoder raise `IndexError`. -/
theorem decode_no_numnames (data : List Nat) (h12 : 12 ≤ data.length)
    (h56 : data.length ≤ 56) :
    _decode_ip_query_packet data = .error .indexError := by
  unfold _decode_ip_query_packet
  simp only [HEADER_STRUCT_SIZE]
  rw [if_neg (by omega)]
  rw [unpack_take data (by omega)]
  rw [show (12 : Nat) + 44 = 56 from rfl, py_index_ge data 56 (by omega)]

/-- A buffer that reaches the `numnames` byte but ends before the last
declared entry's type byte makes the decoder raise. -/
theorem decode_entries_missing (data : List Nat) (h57 : 57 ≤ data.length)
    (hpos : 0 < data.getD 56 0)
    (hshort : data.length < 18 * data.getD 56 0 + 55) :
    ∃ e, _decode_ip_query_packet data = .error e := by
  obtain ⟨m, hm⟩ : ∃ m, data.getD 56 0 = m + 1 :=
    ⟨data.getD 56 0 - 1, by omega⟩
  obtain ⟨e, he⟩ := decode_entries_short data m 57 (by omega)
  refine ⟨e, ?_⟩
  unfold _decode_ip_query_packet
  simp only [HEADER_STRUCT_SIZE]
  rw [if_neg (by omega)]
  rw [unpack_take data (by omega)]
  rw [show (12 : Nat) + 44 = 56 from rfl, py_index_lt data 56 (by omega)]
  simp only []
  rw [show (12 : Nat) + 45 = 57 from rfl, if_pos (by omega), hm, he]

/-- The select-error handler re-raises unconditionally (Python-3 semantics of
lines 155-160). -/
theorem poll_handle_select_error_eq (errnoVal : Nat) :
    poll_handle_select_error errnoVal = .error (.selectError errnoVal) := rfl

/-- A datagram that decodes to a transaction id other than the awaited one is
discarded: the loop continues on the remaining events. -/
theorem poll_skip_mismatch (tid : Nat) (d : List Nat) (t2 : Nat)
    (x : Option (List (List Nat × Nat))) (rest : List PollEvent)
    (hd : d ≠ []) (hdec : _decode_ip_query_packet d = .ok (t2, x))
    (hne : t2 ≠ tid) :
    _poll_for_query_packet tid (PollEvent.datagram d :: rest) =
      _poll_for_query_packet tid rest := by
  unfold _poll_for_query_packet
  rw [if_neg (by simpa using hd), hdec]
  simp only []
  rw [if_neg hne]
  conv_lhs => unfold _poll_for_query_packet

/-- A returned body (other than the discarded cases) always comes from a
datagram in the event sequence whose decoded transaction id equals the
awaited one and whose decoded body is exactly the returned one. -/
theorem poll_matched_decode (tid : Nat) :
    ∀ (events : List PollEvent) (r : List (List Nat × Nat)),
      _poll_for_query_packet tid events = .ok (some r) →
      ∃ d, PollEvent.datagram d ∈ events ∧
        _decode_ip_query_packet d = .ok (tid, some r) := by
  intro events
  induction events with
  | nil => intro r h; cases h
  | cons ev rest ih =>
    intro r h
    cases ev with
    | deadline => cases h
    | selErr errnoVal =>
      rw [show _poll_for_query_packet tid (PollEvent.selErr errnoVal :: rest)
            = .error (.selectError errnoVal) from rfl] at h
      cases h
    | datagram d =>
      unfold _poll_for_query_packet at h
      by_cases hz : d.length = 0
      · rw [if_pos hz] at h; cases h
      · rw [if_neg hz] at h
        cases hdec : _decode_ip_query_packet d with
        | error e => rw [hdec] at h; cases h
        | ok pair =>
          obtain ⟨t2, ret⟩ := pair
          rw [hdec] at h
          simp only [] at h
          by_cases hteq : t2 = tid
          · rw [if_pos hteq] at h
            cases h
            exact ⟨d, List.mem_cons_self _ _, by rw [hdec, hteq]⟩
          · rw [if_neg hteq] at h
            obtain ⟨d2, hmem, hd2⟩ := ih r h
            exact ⟨d2, List.mem_cons_of_mem _ hmem, hd2⟩

/-- Unfolding `query_ip_for_name` once the outbound datagram is known to
build successfully. -/
theorem query_unfold (b : Bool) (tid : Nat) (events : List PollEvent)
    (L : List Nat) (hL : _prepare_net_name_query tid false = .ok L) :
    query_ip_for_name b tid events =
      match _poll_for_query_packet tid events with
      | .error e => .error e
      | .ok ret => .ok (query_process_ret ret) := by
  unfold query_ip_for_name
  rw [hL]

/-- First-level encoding succeeds on every code point below 416 (the first
point whose high nibble overruns `ascii_uppercase`), and its output consists
of bytes at most 90 (the letter `'Z'`), or the untouched newline byte 10. -/
theorem re_sub_dot_encode_lt (l : List Nat) (h : ∀ c ∈ l, c < 416) :
    ∃ e, re_sub_dot_encode l = .ok e ∧ ∀ b ∈ e, b ≤ 90 := by
  induction l with
  | nil => exact ⟨[], rfl, by intro b hb; cases hb⟩
  | cons c rest ih =>
    obtain ⟨e, he, hlt⟩ := ih (fun x hx => h x (List.mem_cons_of_mem _ hx))
    have hc : c < 416 := h c (List.mem_cons_self _ _)
    by_cases h10 : c = 10
    · refine ⟨10 :: e, ?_, ?_⟩
      · unfold re_sub_dot_encode
        rw [if_pos h10, he]
        simp only []
        rw [h10]
        rfl
      · intro b hb
        rcases List.mem_cons.mp hb with hb | hb
        · omega
        · exact hlt b hb
    · have hdiv : c / 16 < 26 := by omega
      have hmod : c % 16 < 26 := by
        have := Nat.mod_lt c (show 0 < 16 from by omega)
        omega
      refine ⟨[65 + c / 16, 65 + c % 16] ++ e, ?_, ?_⟩
      · unfold re_sub_dot_encode
        rw [if_neg h10]
        unfold do_first_level_encoding ascii_uppercase_nth
        rw [if_pos hdiv, if_pos hmod, he]
      · intro b hb
        rcases List.mem_append.mp hb with hb | hb
        · rcases List.mem_cons.mp hb with hb | hb
          · omega
          · rcases List.mem_cons.mp hb with hb | hb
            · omega
            · cases hb
        · exact hlt b hb

/-- The 16-byte name field: it always has length 16, and its bytes stay below
416 when the name's code points and the type byte do. -/
theorem name_field_lt (name : List Nat) (ty : Nat)
    (hn : ∀ c ∈ name, c < 416) (hty : ty < 416) :
    ∃ f, name_field name ty = .ok f ∧ (∀ c ∈ f, c < 416) ∧ f.length = 16 := by
  unfold name_field
  by_cases hstar : name = [42]
  · refine ⟨name ++ List.replicate 15 0, by rw [if_pos hstar], ?_, ?_⟩
    · intro c hc
      rcases List.mem_append.mp hc with hc | hc
      · exact hn c hc
      · have := List.eq_of_mem_replicate hc
        omega
    · rw [hstar]
      rfl
  · rw [if_neg hstar]
    have hchr : py_chr ty = .ok ty := by
      unfold py_chr
      rw [if_pos (by omega)]
    by_cases hlong : name.length > 15
    · rw [if_pos hlong, hchr]
      refine ⟨name.take 15 ++ [ty], rfl, ?_, ?_⟩
      · intro c hc
        rcases List.mem_append.mp hc with hc | hc
        · exact hn c (List.mem_of_mem_take hc)
        · rcases List.mem_cons.mp hc with hc | hc
          · omega
          · cases hc
      · rw [List.length_append, List.length_take]
        simp
        omega
    · rw [if_neg hlong, hchr]
      refine ⟨name ++ List.replicate (15 - name.length) 32 ++ [ty], rfl, ?_, ?_⟩
      · intro c hc
        rcases List.mem_append.mp hc with hc | hc
        · rcases List.mem_append.mp hc with hc | hc
          · exact hn c hc
          · have := List.eq_of_mem_replicate hc
            omega
        · rcases List.mem_cons.mp hc with hc | hc
          · omega
          · cases hc
      · rw [List.length_append, List.length_append, List.length_replicate]
        simp
        omega

/-! Concrete packets used by counterexamples and witnesses. -/

/-- Reply with transaction id `0xABCD`, `numnames = 1`, name bytes
`' ', 'A'` followed by 13 NULs, type `0x20`. -/
def c3cex_data : List Nat :=
  [0xAB, 0xCD, 0x84, 0x00, 0, 0, 0, 1, 0, 0, 0, 0] ++ List.replicate 44 0 ++ [1]
    ++ ([32, 65] ++ List.replicate 13 0) ++ [0x20, 0, 0]

/-- Reply with transaction id `0x4242` and two 18-byte entries
(`"ABC"` type `0x20`, `"XY"` type `0x00`, space-padded names). -/
def c3wit_data : List Nat :=
  [0x42, 0x42, 0x84, 0x00, 0, 0, 0, 2, 0, 0, 0, 0] ++ List.replicate 44 0 ++ [2]
    ++ ([65, 66, 67] ++ List.replicate 12 32) ++ [0x20, 0, 0]
    ++ ([88, 89] ++ List.replicate 13 32) ++ [0x00, 0, 0]

/-- Reply with transaction id `0xEEFF` and `numnames = 1` whose last entry is
missing its 2 flag bytes: 73 bytes instead of the declared 75. -/
def c6cex_data : List Nat :=
  [0xEE, 0xFF, 0x84, 0x00, 0, 0, 0, 1, 0, 0, 0, 0] ++ List.replicate 44 0 ++ [1]
    ++ List.replicate 15 65 ++ [0x20]

/-- Reply with transaction id `0xABCD` (mismatching the id `1` used in the
poll witnesses), `numnames = 1`, name `'B' × 15`, type `0x20`. -/
def c5mis_data : List Nat :=
  [0xAB, 0xCD, 0x84, 0x00, 0, 0, 0, 1, 0, 0, 0, 0] ++ List.replicate 44 0 ++ [1]
    ++ List.replicate 15 66 ++ [0x20, 0, 0]

/-- Reply with transaction id `0x1234`, `numnames = 1`, name
`"WORKSTATION"` space-padded to 15 bytes, type `0x20`. -/
def c2wit_data : List Nat :=
  [0x12, 0x34, 0x84, 0x00, 0, 0, 0, 1, 0, 0, 0, 0] ++ List.replicate 44 0 ++ [1]
    ++ ([87, 79, 82, 75, 83, 84, 65, 84, 73, 79, 78] ++ List.replicate 4 32)
    ++ [0x20, 0, 0]

/-- Modelled from the spec's words, for comparison with the code's
`bytes.strip()`: remove only TRAILING space and NUL padding. -/
def spec_rtrim_space_nul (l : List Nat) : List Nat :=
  (l.reverse.dropWhile (fun b => b == 32 || b == 0)).reverse

/-! Claim theorems. -/

/-- C1 (counterexample): the claim's end-to-end example is wrong about the
byte order of the transaction id. For `t = 0x1234`, broadcast, the header
starts `12 34`, not `34 12`: `'>H'` packs big-endian. -/
theorem netbios_c1_counterexample :
    (_prepare_net_name_query 0x1234 true).map (List.take 12) =
      .ok [0x12, 0x34, 0x00, 0x10, 0, 1, 0, 0, 0, 0, 0, 0]
    ∧ ([0x12, 0x34, 0x00, 0x10, 0, 1, 0, 0, 0, 0, 0, 0] : List Nat) ≠
        [0x34, 0x12, 0x00, 0x10, 0, 1, 0, 0, 0, 0, 0, 0] :=
  ⟨by rfl, by decide⟩

/-- C1 (amended): for every 16-bit transaction id `t` and boolean `b`, the
query builder produces the 12-byte header packing `(t, flags, 1, 0, 0, 0)` as
big-endian 16-bit words with `flags = 0x0010` iff `b`, followed by the length
byte `0x20`, the 32 encoded wildcard characters, the scope-terminator byte
`0x00`, and the 4 bytes `00 21 00 01`; in particular for `t = 0x1234` and
broadcast the header bytes are `12 34 00 10 00 01 00 00 00 00 00 00`. -/
theorem netbios_c1_header_layout (t : Nat) (b : Bool) (ht : t < 65536) :
    _prepare_net_name_query t b = .ok
      ((u16be t ++ u16be (if b then 0x0010 else 0x0000) ++ u16be 1 ++ u16be 0
          ++ u16be 0 ++ u16be 0)
        ++ (0x20 :: (67 :: 75 :: List.replicate 30 65)) ++ [0x00]
        ++ [0x00, 0x21, 0x00, 0x01]) := by
  rw [prepare_eq t b ht]
  cases b <;> rfl

/-- C1 (witness): the amended layout at `t = 0x1234`, broadcast. -/
theorem netbios_c1_header_layout_witness :
    _prepare_net_name_query 0x1234 true = .ok
      (([0x12, 0x34] ++ [0x00, 0x10] ++ [0x00, 0x01] ++ [0, 0] ++ [0, 0] ++ [0, 0])
        ++ (0x20 :: (67 :: 75 :: List.replicate 30 65)) ++ [0x00]
        ++ [0x00, 0x21, 0x00, 0x01]) :=
  (netbios_c1_header_layout 0x1234 true (by decide)).trans (by rfl)

/-- Unpacking a 12-byte literal header prefix yields its six words. -/
theorem unpack12 (b0 b1 b2 b3 b4 b5 b6 b7 b8 b9 b10 b11 : Nat)
    (rest : List Nat) :
    struct_unpack_header
        (([b0, b1, b2, b3, b4, b5, b6, b7, b8, b9, b10, b11] ++ rest).take 12) =
      .ok (256 * b0 + b1, 256 * b2 + b3, 256 * b4 + b5, 256 * b6 + b7,
           256 * b8 + b9, 256 * b10 + b11) := rfl

/-- C9: decoding the header produced by the query builder with the packet
decoder's header-unpack step recovers the transaction id, the flags word,
and the four counts `(1, 0, 0, 0)` exactly. -/
theorem netbios_c9_header_roundtrip (t : Nat) (b : Bool) (ht : t < 65536)
    (d : List Nat) (hd : _prepare_net_name_query t b = .ok d) :
    struct_unpack_header (d.take HEADER_STRUCT_SIZE) =
      .ok (t, (if b then 0x0010 else 0x0000), 1, 0, 0, 0) := by
  rw [prepare_eq t b ht] at hd
  injection hd with hd
  subst hd
  simp only [HEADER_STRUCT_SIZE]
  rw [List.append_assoc, unpack12]
  have hm : 256 * (t / 256) + t % 256 = t := Nat.div_add_mod t 256
  cases b <;> simp [hm]

/-- C9 (witness): round-trip at `t = 0x1234`, non-broadcast. -/
theorem netbios_c9_header_roundtrip_witness :
    struct_unpack_header
        ((([0x12, 0x34, 0, 0, 0, 1, 0, 0, 0, 0, 0, 0]
          ++ (32 :: (67 :: 75 :: List.replicate 30 65) ++ [0])
          ++ [0x00, 0x21, 0x00, 0x01]).take HEADER_STRUCT_SIZE)) =
      .ok (0x1234, 0x0000, 1, 0, 0, 0) :=
  (netbios_c9_header_roundtrip 0x1234 false (by decide) _ (by rfl)).trans (by rfl)

/-- C10: the datagram sent by `query_ip_for_name` is always built with
`is_broadcast = False` — its flags word (bytes 2 and 3) is `0x0000` no matter
how the instance's `broadcast` attribute was set. -/
theorem netbios_c10_flags_zero (broadcast : Bool) (t : Nat)
    (h1 : 1 ≤ t) (h2 : t ≤ 0xFFFF) :
    query_sent_datagram broadcast t = _prepare_net_name_query t false
    ∧ ∃ d, query_sent_datagram broadcast t = .ok d
        ∧ d.get? 2 = some 0 ∧ d.get? 3 = some 0 ∧ u16at d 2 = 0 := by
  constructor
  · rfl
  · refine ⟨[t / 256, t % 256, 0, 0, 0, 1, 0, 0, 0, 0, 0, 0]
      ++ (32 :: (67 :: 75 :: List.replicate 30 65) ++ [0])
      ++ [0x00, 0x21, 0x00, 0x01], ?_, ?_, ?_, ?_⟩
    · show _prepare_net_name_query t false = _
      rw [prepare_eq t false (by omega)]
      rfl
    · rfl
    · rfl
    · rfl

/-- C10 (witness): flags bytes are zero at `broadcast = true`, `t = 0x1234`. -/
theorem netbios_c10_flags_zero_witness :
    query_sent_datagram true 0x1234 = _prepare_net_name_query 0x1234 false
    ∧ ∃ d, query_sent_datagram true 0x1234 = .ok d
        ∧ d.get? 2 = some 0 ∧ d.get? 3 = some 0 ∧ u16at d 2 = 0 :=
  netbios_c10_flags_zero true 0x1234 (by decide) (by decide)

/-- C5: during one exchange, (1) a received datagram whose decoded
transaction id differs from the awaited one is discarded and polling
continues on the remaining events; (2) reaching the deadline returns `None`;
(3) a decoded body is returned only for a datagram whose transaction id
matches the one sent. -/
theorem netbios_c5_poll_discipline (tid : Nat) :
    (∀ (d : List Nat) (t2 : Nat) (x : Option (List (List Nat × Nat)))
        (rest : List PollEvent),
        _decode_ip_query_packet d = .ok (t2, x) → t2 ≠ tid → d ≠ [] →
        _poll_for_query_packet tid (PollEvent.datagram d :: rest) =
          _poll_for_query_packet tid rest)
    ∧ (∀ rest : List PollEvent,
        _poll_for_query_packet tid (PollEvent.deadline :: rest) = .ok none)
    ∧ (∀ (events : List PollEvent) (r : List (List Nat × Nat)),
        _poll_for_query_packet tid events = .ok (some r) →
        ∃ d, PollEvent.datagram d ∈ events ∧
          _decode_ip_query_packet d = .ok (tid, some r)) :=
  ⟨fun d t2 x rest h1 h2 h3 => poll_skip_mismatch tid d t2 x rest h3 h1 h2,
   fun _ => rfl,
   fun events r h => poll_matched_decode tid events r h⟩

/-- C5 (witness): with awaited id 1, the mismatched reply `c5mis_data`
(id `0xABCD`) is discarded, and the subsequent deadline returns `None`. -/
theorem netbios_c5_poll_discipline_witness :
    _poll_for_query_packet 1 [PollEvent.datagram c5mis_data, PollEvent.deadline]
        = _poll_for_query_packet 1 [PollEvent.deadline]
    ∧ _poll_for_query_packet 1 [PollEvent.deadline] = .ok none :=
  ⟨(netbios_c5_poll_discipline 1).1 c5mis_data 0xABCD
      (some [(List.replicate 15 66, 0x20)]) [PollEvent.deadline]
      (by rfl) (by decide) (by decide),
   (netbios_c5_poll_discipline 1).2.1 []⟩

/-- C2: whenever the poll loop yields a decoded record list, the public
operation returns exactly the names of the entries whose service-type byte
equals `TYPE_SERVER = 0x20`, in order; when the poll loop yields `None`
(timeout, or a matched reply with `numnames = 0`), it returns `None`. -/
theorem netbios_c2_query_filters_server (b : Bool) (tid : Nat)
    (h1 : 1 ≤ tid) (h2 : tid ≤ 0xFFFF) (events : List PollEvent) :
    (∀ l, _poll_for_query_packet tid events = .ok (some l) →
        query_ip_for_name b tid events =
          .ok (some ((l.filter fun s => s.2 == TYPE_SERVER).map fun s => s.1)))
    ∧ (_poll_for_query_packet tid events = .ok none →
        query_ip_for_name b tid events = .ok none) := by
  have hp := prepare_eq tid false (by omega)
  constructor
  · intro l hl
    rw [query_unfold b tid events _ hp, hl]
    have hne : l ≠ [] := by
      obtain ⟨d, _, hdec⟩ := poll_matched_decode tid events l hl
      exact decode_ok_some_nonempty d tid l hdec
    show Except.ok (query_process_ret (some l)) = _
    unfold query_process_ret
    simp only []
    rw [if_neg (by simpa [List.isEmpty_iff] using hne)]
  · intro hl
    rw [query_unfold b tid events _ hp, hl]
    rfl

/-- C2 (witness): the spec's end-to-end scenario. A matched reply carrying
one entry `("WORKSTATION", 0x20)` makes the public operation return
`["WORKSTATION"]`. -/
theorem netbios_c2_query_filters_server_witness :
    _poll_for_query_packet 0x1234 [PollEvent.datagram c2wit_data]
        = .ok (some [([87, 79, 82, 75, 83, 84, 65, 84, 73, 79, 78], 0x20)])
    ∧ query_ip_for_name true 0x1234 [PollEvent.datagram c2wit_data]
        = .ok (some [[87, 79, 82, 75, 83, 84, 65, 84, 73, 79, 78]]) :=
  ⟨by rfl,
   ((netbios_c2_query_filters_server true 0x1234 (by decide) (by decide)
       [PollEvent.datagram c2wit_data]).1
     [([87, 79, 82, 75, 83, 84, 65, 84, 73, 79, 78], 0x20)] (by rfl)).trans
     (by rfl)⟩

/-- C3 (counterexample): the decoder uses `bytes.strip()`, which strips ASCII
whitespace from both ends and keeps NUL padding. On an entry whose name bytes
are `' ', 'A'` followed by 13 NULs, the code yields `'A'` followed by 13 NULs
(leading space removed, NULs kept), while the claim's right-trim of trailing
space/NUL padding would yield `' A'`. -/
theorem netbios_c3_counterexample :
    _decode_ip_query_packet c3cex_data =
      .ok (0xABCD, some [(65 :: List.replicate 13 0, 0x20)])
    ∧ spec_rtrim_space_nul ((c3cex_data.drop 57).take 15) = [32, 65]
    ∧ (65 :: List.replicate 13 0 : List Nat) ≠ [32, 65] :=
  ⟨by rfl, by rfl, by decide⟩

/-- C3 (amended): for every reply long enough for its declared record count
whose stripped names are ASCII, decode with `numnames = 0` returns
`(transactionId, none)`, and decode with `numnames = k > 0` returns exactly
the `k` (name, type) pairs read from consecutive 18-byte entries at offset
57, where each name is bytes `[0:15]` of its entry with ASCII whitespace
(space, TAB, LF, VT, FF, CR — not NUL) stripped from BOTH ends, and the type
is byte `[15]`. -/
theorem netbios_c3_decode_entries (data : List Nat)
    (hlen : 57 + 18 * data.getD 56 0 ≤ data.length)
    (hascii : ∀ i, i < data.getD 56 0 →
      (((entry_spec data i).1).all (fun b => b < 128)) = true) :
    _decode_ip_query_packet data =
      .ok (u16at data 0,
        if data.getD 56 0 = 0 then none
        else some ((List.range (data.getD 56 0)).map (entry_spec data))) :=
  decode_ok_eq data hlen hascii

/-- C3 (witness): a two-entry reply decodes to its two stripped names. -/
theorem netbios_c3_decode_entries_witness :
    c3wit_data.getD 56 0 = 2
    ∧ _decode_ip_query_packet c3wit_data =
        .ok (0x4242, some [([65, 66, 67], 0x20), ([88, 89], 0x00)]) :=
  ⟨by decide,
   (netbios_c3_decode_entries c3wit_data (by decide) (by decide)).trans (by rfl)⟩

/-- C4: encoding with any non-empty scope raises `AttributeError` in
Python 3 — `string.split` was removed from the `string` module — instead of
appending the dot-separated, length-prefixed scope labels the spec (and the
original Python-2 pysmb code) intends. Shown at name `"FOO"`, type `0x20`,
scope `"EXAMPLE.COM"`, and at the wildcard name with scope `"X"`. -/
theorem netbios_c4_scope_attribute_error :
    _encode_name [70, 79, 79] 0x20
        (some [69, 88, 65, 77, 80, 76, 69, 46, 67, 79, 77]) =
      .error .attributeError
    ∧ _encode_name [42] 0 (some [88]) = .error .attributeError :=
  ⟨by rfl, by rfl⟩

/-- C6 (counterexample): a 73-byte reply declaring `numnames = 1` is shorter
than the declared structure (57 + 18 = 75 bytes), yet the decoder returns a
full result rather than failing: the 2 flag bytes of an entry are never
read. -/
theorem netbios_c6_counterexample :
    c6cex_data.length = 73
    ∧ c6cex_data.getD 56 0 = 1
    ∧ (73 : Nat) < 57 + 18 * 1
    ∧ _decode_ip_query_packet c6cex_data =
        .ok (0xEEFF, some [(List.replicate 15 65, 0x20)]) :=
  ⟨by decide, by decide, by decide, by rfl⟩

/-- C6 (amended): a buffer of at least 12 bytes that ends at or before
offset 56 makes decode fail with `IndexError` (the `numnames` read), and a
buffer whose length is below `18·numnames + 55` (the last entry's type byte)
fails with a decode error; lengths `18·numnames + 55` and `+ 56` succeed even
though the declared structure needs `18·numnames + 57` bytes, because entry
flag bytes are never read. -/
theorem netbios_c6_truncated_fails (data : List Nat) (h12 : 12 ≤ data.length) :
    (data.length ≤ 56 → _decode_ip_query_packet data = .error .indexError)
    ∧ (0 < data.getD 56 0 → data.length < 18 * data.getD 56 0 + 55 →
        ∃ e, _decode_ip_query_packet data = .error e) := by
  constructor
  · intro h56
    exact decode_no_numnames data h12 h56
  · intro hpos hshort
    by_cases h57 : 57 ≤ data.length
    · exact decode_entries_missing data h57 hpos hshort
    · exfalso
      have : data.getD 56 0 = 0 := List.getD_eq_default data 0 (by omega)
      omega

/-- C6 (witness): a 20-byte buffer fails at the `numnames` read, and a
58-byte buffer declaring 2 entries fails inside the entry loop. -/
theorem netbios_c6_truncated_fails_witness :
    _decode_ip_query_packet (List.replicate 20 7) = .error .indexError
    ∧ ∃ e, _decode_ip_query_packet (List.replicate 56 0 ++ [2, 0]) = .error e :=
  ⟨(netbios_c6_truncated_fails (List.replicate 20 7) (by decide)).1 (by decide),
   (netbios_c6_truncated_fails (List.replicate 56 0 ++ [2, 0])
       (by decide)).2 (by decide) (by decide)⟩

/-- C7: an interrupted-wait condition raised by the readiness-wait primitive
is NOT retried: the handler's `type(ex) is tuple` test is never true in
Python 3, so a `select.error` carrying `EINTR` (4) or `EAGAIN` (11)
propagates out of the poll loop instead of being swallowed. -/
theorem netbios_c7_eintr_surfaces :
    _poll_for_query_packet 1 [PollEvent.selErr 4] = .error (.selectError 4)
    ∧ _poll_for_query_packet 1 [PollEvent.selErr 11, PollEvent.deadline]
        = .error (.selectError 11)
    ∧ poll_handle_select_error 4 = .error (.selectError 4) :=
  ⟨by rfl, by rfl, by rfl⟩

/-- C8 (counterexample): the encoder does NOT fail on non-ASCII input. The
one-character name `'é'` (code point 233 ≥ 128) is silently first-level
encoded — 233 becomes the letters `'O','J'` — and the call succeeds. -/
theorem netbios_c8_counterexample :
    (128 : Nat) ≤ 233
    ∧ _encode_name [233] 0 none =
        .ok (32 :: ([79, 74] ++ (List.replicate 14 ([67, 65] : List Nat)).flatten
            ++ [65, 65]) ++ [0]) :=
  ⟨by decide, by rfl⟩

/-- C8 (amended): the encoder performs no non-ASCII validation. For every
name whose code points are below 416 and every type byte below 416 —
including non-ASCII points 128..415 — encoding without scope succeeds, and
the output is pure 7-bit ASCII (every byte at most 90 < 128). Only code
points at or above 416 (whose high nibble overruns `ascii_uppercase`) raise,
and that error is an `IndexError`, not a validation error. -/
theorem netbios_c8_ascii_output (name : List Nat) (ty : Nat)
    (hname : ∀ c ∈ name, c < 416) (hty : ty < 416) :
    ∃ d, _encode_name name ty none = .ok d ∧ ∀ b2 ∈ d, b2 < 91 := by
  obtain ⟨f, hf, hflt, hlen⟩ := name_field_lt name ty hname hty
  obtain ⟨e, he, helt⟩ := re_sub_dot_encode_lt f hflt
  have hall : ((f.length * 2 :: e) ++ [0]).all (fun b => b < 128) = true := by
    rw [List.all_eq_true]
    intro x hx
    simp only [decide_eq_true_eq]
    rcases List.mem_append.mp hx with hx | hx
    · rcases List.mem_cons.mp hx with hx | hx
      · subst hx
        omega
      · have := helt x hx
        omega
    · rcases List.mem_cons.mp hx with hx | hx
      · omega
      · cases hx
  refine ⟨(f.length * 2 :: e) ++ [0], ?_, ?_⟩
  · unfold _encode_name
    rw [hf]
    simp only []
    rw [he]
    simp only []
    unfold bytes_ascii
    rw [if_pos hall]
  · intro b2 hb2
    rcases List.mem_append.mp hb2 with hb2 | hb2
    · rcases List.mem_cons.mp hb2 with hb2 | hb2
      · subst hb2
        omega
      · have := helt b2 hb2
        omega
    · rcases List.mem_cons.mp hb2 with hb2 | hb2
      · omega
      · cases hb2

/-- C8 (witness): the all-ASCII name `"WORK"` with type `0x20` encodes
successfully into pure-ASCII output. -/
theorem netbios_c8_ascii_output_witness :
    (∀ c ∈ ([87, 79, 82, 75] : List Nat), c < 416)
    ∧ ∃ d, _encode_name [87, 79, 82, 75] 0x20 none = .ok d ∧ ∀ b2 ∈ d, b2 < 91 :=
  ⟨by decide, netbios_c8_ascii_output [87, 79, 82, 75] 0x20 (by decide) (by decide)⟩
